import Mathlib

/-!
Shallow embedding of the display-arrangement engine of the smoothie
repository: the monitor-editor component (save reconciliation, apply-to-system
outcome classification, drag transform, fit scale, preset layouts), the
system-detection session hook, and the window-filter contract of the backend
detector.  JS numbers are modelled as rationals; persisted coordinates as the
integers produced by JS `Math.round`.
-/

namespace Smoothie

/-- JS `Math.round`: round half toward positive infinity. -/
def jsRound (q : ℚ) : ℤ := ⌊q + 1 / 2⌋

/-- JS `a || b` for an optional string `a`: `b` when `a` is `undefined` or the
empty string (both falsy in JS). -/
def jsOrStr (a : Option String) (b : String) : String :=
  match a with
  | none => b
  | some s => if s = "" then b else s

/-- The editable monitor record of the monitor-editor component (`interface
Monitor` in the source).  The `windows` list (always empty in the flows
modelled here and never read by them) and the optional `refreshRate`,
`scaleFactor`, `isBuiltin`, `brand`, `model` fields (not read by the
reconciler, drag, scale or preset logic) are omitted. -/
structure Monitor where
  id : String
  x : ℚ
  y : ℚ
  width : ℚ
  height : ℚ
  name : String
  resolution : String
  isPrimary : Bool
  orientation : Option String
  deriving DecidableEq

/-- The ids of a monitor list, in order. -/
def idsOf (l : List Monitor) : List String := l.map (·.id)

/-- One persistence operation issued by `handleSaveLayout`.  `create` records
in `mid` the editable monitor's local id (the source calls `createMonitor`
for that monitor; the id itself is not among the transmitted fields) so that
the identity bookkeeping of the plan can be stated. -/
inductive Op where
  | update (mid : String) (x y w h : ℤ)
  | create (mid profileId name resolution orientation : String)
      (isPrimary : Bool) (x y w h : ℤ) (displayIndex : ℕ)
  | delete (mid : String)
  deriving DecidableEq

/-- The first loop of `handleSaveLayout`: for each editable monitor, an update
when `profileMonitors.find(pm => pm.id === monitor.id)` succeeds, otherwise a
create whose `displayIndex` is `monitors.indexOf(monitor)` — the monitor's own
position in the iterated list (JS `indexOf` compares by object reference), so
the position is carried as the explicit index `i`. -/
def upserts (pid : String) (profileMonitors : List Monitor) :
    List Monitor → ℕ → List Op
  | [], _ => []
  | m :: rest, i =>
    (match profileMonitors.find? (fun pm => pm.id == m.id) with
     | some _ =>
        Op.update m.id (jsRound m.x) (jsRound m.y) (jsRound m.width) (jsRound m.height)
     | none =>
        Op.create m.id pid m.name m.resolution (jsOrStr m.orientation "Landscape")
          m.isPrimary (jsRound m.x) (jsRound m.y) (jsRound m.width) (jsRound m.height) i)
    :: upserts pid profileMonitors rest (i + 1)

/-- The operation plan of `handleSaveLayout`: the upsert loop over the editable
monitors followed by a delete for every profile monitor whose id no longer
occurs in the editable set. -/
def savePlan (pid : String) (profileMonitors monitors : List Monitor) : List Op :=
  upserts pid profileMonitors monitors 0 ++
    (profileMonitors.filter
        (fun pm => (monitors.find? (fun m => m.id == pm.id)).isNone)).map
      (fun pm => Op.delete pm.id)

/-- The ids of the update operations of a plan, in order. -/
def updateIds (ops : List Op) : List String :=
  ops.filterMap fun op =>
    match op with
    | .update i _ _ _ _ => some i
    | _ => none

/-- The ids of the create operations of a plan, in order. -/
def createIds (ops : List Op) : List String :=
  ops.filterMap fun op =>
    match op with
    | .create i _ _ _ _ _ _ _ _ _ _ => some i
    | _ => none

/-- The ids of the delete operations of a plan, in order. -/
def deleteIds (ops : List Op) : List String :=
  ops.filterMap fun op =>
    match op with
    | .delete i => some i
    | _ => none

/-- The (id, displayIndex) pairs of the create operations of a plan. -/
def createIdxPairs (ops : List Op) : List (String × ℕ) :=
  ops.filterMap fun op =>
    match op with
    | .create i _ _ _ _ _ _ _ _ _ idx => some (i, idx)
    | _ => none

lemma findId_isSome_eq (O : List Monitor) (j : String) :
    ((O.find? (fun pm => pm.id == j)).isSome) = decide (j ∈ idsOf O) := by
  induction O with
  | nil => simp [idsOf]
  | cons pm rest ih =>
    by_cases h : pm.id = j
    · simp [List.find?_cons, idsOf, h]
    · have hb : (pm.id == j) = false := by simpa using h
      simp [List.find?_cons, hb, idsOf, ih, h, Ne.symm h]

lemma findId_isNone_eq (O : List Monitor) (j : String) :
    ((O.find? (fun pm => pm.id == j)).isNone) = decide (j ∉ idsOf O) := by
  have h : ∀ o : Option Monitor, o.isNone = !o.isSome := by intro o; cases o <;> rfl
  rw [h, findId_isSome_eq]
  by_cases hj : j ∈ idsOf O <;> simp [hj]

lemma updateIds_delete_map (l : List Monitor) :
    updateIds (l.map fun pm => Op.delete pm.id) = [] := by
  induction l with
  | nil => rfl
  | cons m rest _ => simp [updateIds, List.filterMap_cons]

lemma createIds_delete_map (l : List Monitor) :
    createIds (l.map fun pm => Op.delete pm.id) = [] := by
  induction l with
  | nil => rfl
  | cons m rest _ => simp [createIds, List.filterMap_cons]

lemma createIdxPairs_delete_map (l : List Monitor) :
    createIdxPairs (l.map fun pm => Op.delete pm.id) = [] := by
  induction l with
  | nil => rfl
  | cons m rest _ => simp [createIdxPairs, List.filterMap_cons]

lemma updateIds_upserts (pid : String) (O : List Monitor) :
    ∀ (N : List Monitor) (i : ℕ),
      updateIds (upserts pid O N i)
        = (idsOf N).filter fun j => (O.find? (fun pm => pm.id == j)).isSome := by
  intro N
  induction N with
  | nil => intro i; rfl
  | cons m rest ih =>
    intro i
    cases hfind : O.find? (fun pm => pm.id == m.id) with
    | some pm =>
      simp [upserts, hfind, updateIds, List.filterMap_cons, idsOf, List.filter_cons, ih,
        updateIds] at ih ⊢
      exact ih (i + 1)
    | none =>
      simp [upserts, hfind, updateIds, List.filterMap_cons, idsOf, List.filter_cons, ih,
        updateIds] at ih ⊢
      exact ih (i + 1)

lemma deleteIds_upserts (pid : String) (O : List Monitor) :
    ∀ (N : List Monitor) (i : ℕ), deleteIds (upserts pid O N i) = [] := by
  intro N
  induction N with
  | nil => intro i; rfl
  | cons m rest ih =>
    intro i
    cases hfind : O.find? (fun pm => pm.id == m.id) with
    | some pm =>
      simpa [upserts, hfind, deleteIds, List.filterMap_cons] using ih (i + 1)
    | none =>
      simpa [upserts, hfind, deleteIds, List.filterMap_cons] using ih (i + 1)

lemma createIds_upserts (pid : String) (O : List Monitor) :
    ∀ (N : List Monitor) (i : ℕ),
      createIds (upserts pid O N i)
        = (idsOf N).filter fun j => (O.find? (fun pm => pm.id == j)).isNone := by
  intro N
  induction N with
  | nil => intro i; rfl
  | cons m rest ih =>
    intro i
    cases hfind : O.find? (fun pm => pm.id == m.id) with
    | some pm =>
      simp [upserts, hfind, createIds, List.filterMap_cons, idsOf, List.filter_cons] at ih ⊢
      exact ih (i + 1)
    | none =>
      simp [upserts, hfind, createIds, List.filterMap_cons, idsOf, List.filter_cons] at ih ⊢
      exact ih (i + 1)

lemma createIdxPairs_upserts (pid : String) (O : List Monitor) :
    ∀ (N : List Monitor) (i : ℕ) (j : String) (k : ℕ),
      (j, k) ∈ createIdxPairs (upserts pid O N i) →
        i ≤ k ∧ (idsOf N).get? (k - i) = some j ∧
          (O.find? (fun pm => pm.id == j)).isSome = false := by
  intro N
  induction N with
  | nil => intro i j k h; simp [upserts, createIdxPairs] at h
  | cons m rest ih =>
    intro i j k h
    cases hfind : O.find? (fun pm => pm.id == m.id) with
    | some pm =>
      rw [upserts, hfind] at h
      simp only [createIdxPairs, List.filterMap_cons] at h
      obtain ⟨h1, h2, h3⟩ := ih (i + 1) j k h
      refine ⟨by omega, ?_, h3⟩
      have hk : k - i = (k - (i + 1)) + 1 := by omega
      rw [hk]
      simpa [idsOf] using h2
    | none =>
      rw [upserts, hfind] at h
      simp only [createIdxPairs, List.filterMap_cons, List.mem_cons] at h
      rcases h with h | h
      · obtain ⟨hj, hk⟩ := Prod.mk.injEq .. ▸ h
        subst hj; subst hk
        refine ⟨le_rfl, ?_, by rw [hfind]; rfl⟩
        simp [idsOf]
      · obtain ⟨h1, h2, h3⟩ := ih (i + 1) j k h
        refine ⟨by omega, ?_, h3⟩
        have hk : k - i = (k - (i + 1)) + 1 := by omega
        rw [hk]
        simpa [idsOf] using h2

lemma update_mem_upserts (pid : String) (O : List Monitor) :
    ∀ (N : List Monitor) (i : ℕ) (m : Monitor), m ∈ N →
      (O.find? (fun pm => pm.id == m.id)).isSome = true →
      Op.update m.id (jsRound m.x) (jsRound m.y) (jsRound m.width) (jsRound m.height)
        ∈ upserts pid O N i := by
  intro N
  induction N with
  | nil => intro i m hm; exact absurd hm (List.not_mem_nil m)
  | cons m2 rest ih =>
    intro i m hm hfound
    rcases List.mem_cons.mp hm with h | h
    · subst h
      cases hfind : O.find? (fun pm => pm.id == m.id) with
      | some pm => rw [upserts, hfind]; exact List.mem_cons_self _ _
      | none => rw [hfind] at hfound; simp at hfound
    · cases hfind : O.find? (fun pm => pm.id == m2.id) with
      | some pm => rw [upserts, hfind]; exact List.mem_cons_of_mem _ (ih (i + 1) m h hfound)
      | none => rw [upserts, hfind]; exact List.mem_cons_of_mem _ (ih (i + 1) m h hfound)

lemma deleteIds_cons_delete (i : String) (l : List Op) :
    deleteIds (Op.delete i :: l) = i :: deleteIds l := rfl

lemma deleteIds_delete_map (l : List Monitor) :
    deleteIds (l.map fun pm => Op.delete pm.id) = l.map (·.id) := by
  induction l with
  | nil => rfl
  | cons m rest ih => simp [List.map_cons, deleteIds_cons_delete, ih]

lemma map_id_filter (O : List Monitor) (p : String → Bool) :
    (O.filter fun pm => p pm.id).map (·.id) = (O.map (·.id)).filter p := by
  induction O with
  | nil => rfl
  | cons m rest ih =>
    by_cases h : p m.id = true
    · simp [List.filter_cons, h, ih]
    · simp only [Bool.not_eq_true] at h
      simp [List.filter_cons, h, ih]

lemma updateIds_append (l1 l2 : List Op) :
    updateIds (l1 ++ l2) = updateIds l1 ++ updateIds l2 :=
  List.filterMap_append ..

lemma createIds_append (l1 l2 : List Op) :
    createIds (l1 ++ l2) = createIds l1 ++ createIds l2 :=
  List.filterMap_append ..

lemma deleteIds_append (l1 l2 : List Op) :
    deleteIds (l1 ++ l2) = deleteIds l1 ++ deleteIds l2 :=
  List.filterMap_append ..

lemma createIdxPairs_append (l1 l2 : List Op) :
    createIdxPairs (l1 ++ l2) = createIdxPairs l1 ++ createIdxPairs l2 :=
  List.filterMap_append ..

lemma updateIds_savePlan (pid : String) (O N : List Monitor) :
    updateIds (savePlan pid O N) = (idsOf N).filter fun j => decide (j ∈ idsOf O) := by
  rw [savePlan, updateIds_append, updateIds_delete_map, List.append_nil,
    updateIds_upserts]
  exact List.filter_congr fun j _ => findId_isSome_eq O j

lemma createIds_savePlan (pid : String) (O N : List Monitor) :
    createIds (savePlan pid O N) = (idsOf N).filter fun j => decide (j ∉ idsOf O) := by
  rw [savePlan, createIds_append, createIds_delete_map, List.append_nil,
    createIds_upserts]
  exact List.filter_congr fun j _ => findId_isNone_eq O j

lemma deleteIds_savePlan (pid : String) (O N : List Monitor) :
    deleteIds (savePlan pid O N) = (idsOf O).filter fun j => decide (j ∉ idsOf N) := by
  rw [savePlan, deleteIds_append, deleteIds_upserts, List.nil_append,
    deleteIds_delete_map]
  have hcong : (O.filter fun pm => ((N.find? (fun m => m.id == pm.id)).isNone))
      = O.filter fun pm => decide (pm.id ∉ idsOf N) :=
    List.filter_congr fun pm _ => findId_isNone_eq N pm.id
  rw [hcong]
  exact map_id_filter O fun j => decide (j ∉ idsOf N)

lemma createIdxPairs_savePlan (pid : String) (O N : List Monitor) (j : String) (k : ℕ) :
    (j, k) ∈ createIdxPairs (savePlan pid O N) →
      (idsOf N).get? k = some j ∧ j ∉ idsOf O := by
  intro h
  rw [savePlan, createIdxPairs_append, createIdxPairs_delete_map,
    List.append_nil] at h
  obtain ⟨-, h2, h3⟩ := createIdxPairs_upserts pid O N 0 j k h
  rw [findId_isSome_eq] at h3
  refine ⟨by simpa using h2, ?_⟩
  simpa using h3

/-- Claim C1: for every previously persisted monitor set `O` and editable set
`N` (both keyed by monitor id), `handleSaveLayout` issues exactly one update
per id in `O ∩ N` (carrying the rounded position/size fields of the editable
monitor), one create per id in `N \ O` whose display index is the monitor's
position in the editable list, and one delete per id in `O \ N`; no id occurs
in more than one of the three operation lists. -/
theorem savePlan_partitions (pid : String) (O N : List Monitor)
    (hN : (idsOf N).Nodup) (hO : (idsOf O).Nodup) :
    updateIds (savePlan pid O N) = ((idsOf N).filter fun j => decide (j ∈ idsOf O))
    ∧ createIds (savePlan pid O N) = ((idsOf N).filter fun j => decide (j ∉ idsOf O))
    ∧ deleteIds (savePlan pid O N) = ((idsOf O).filter fun j => decide (j ∉ idsOf N))
    ∧ (updateIds (savePlan pid O N)).Nodup
    ∧ (createIds (savePlan pid O N)).Nodup
    ∧ (deleteIds (savePlan pid O N)).Nodup
    ∧ (updateIds (savePlan pid O N)).Disjoint (createIds (savePlan pid O N))
    ∧ (updateIds (savePlan pid O N)).Disjoint (deleteIds (savePlan pid O N))
    ∧ (createIds (savePlan pid O N)).Disjoint (deleteIds (savePlan pid O N))
    ∧ (∀ m ∈ N, m.id ∈ idsOf O →
        Op.update m.id (jsRound m.x) (jsRound m.y) (jsRound m.width) (jsRound m.height)
          ∈ savePlan pid O N)
    ∧ ∀ j k, (j, k) ∈ createIdxPairs (savePlan pid O N) →
        (idsOf N).get? k = some j ∧ j ∉ idsOf O := by
  refine ⟨updateIds_savePlan pid O N, createIds_savePlan pid O N,
    deleteIds_savePlan pid O N, ?_, ?_, ?_, ?_, ?_, ?_, ?_,
    fun j k => createIdxPairs_savePlan pid O N j k⟩
  · rw [updateIds_savePlan]; exact hN.filter _
  · rw [createIds_savePlan]; exact hN.filter _
  · rw [deleteIds_savePlan]; exact hO.filter _
  · intro a ha hb
    rw [updateIds_savePlan] at ha
    rw [createIds_savePlan] at hb
    have h1 := (List.mem_filter.mp ha).2
    have h2 := (List.mem_filter.mp hb).2
    simp only [decide_eq_true_eq] at h1 h2
    exact h2 h1
  · intro a ha hb
    rw [updateIds_savePlan] at ha
    rw [deleteIds_savePlan] at hb
    have h1 := (List.mem_filter.mp ha).1
    have h2 := (List.mem_filter.mp hb).2
    simp only [decide_eq_true_eq] at h2
    exact h2 h1
  · intro a ha hb
    rw [createIds_savePlan] at ha
    rw [deleteIds_savePlan] at hb
    have h1 := (List.mem_filter.mp ha).1
    have h2 := (List.mem_filter.mp hb).2
    simp only [decide_eq_true_eq] at h2
    exact h2 h1
  · intro m hm hmid
    exact List.mem_append_left _
      (update_mem_upserts pid O N 0 m hm (by rw [findId_isSome_eq]; simpa using hmid))

/-- A live-capture monitor, also present (with a moved position) in the
editable set of the save scenario of the spec. -/
def wm1 : Monitor :=
  { id := "1", x := 0, y := 0, width := 2560, height := 1440,
    name := "A", resolution := "2560x1440", isPrimary := true,
    orientation := some "Landscape" }

/-- The monitor that exists only in the editable set (to be created). -/
def wm2 : Monitor :=
  { id := "2", x := 2560, y := 0, width := 1440, height := 900,
    name := "B", resolution := "1440x900", isPrimary := false,
    orientation := none }

/-- The monitor that exists only in the persisted set (to be deleted). -/
def wm3 : Monitor :=
  { id := "3", x := 0, y := 1440, width := 1920, height := 1080,
    name := "C", resolution := "1920x1080", isPrimary := false,
    orientation := none }

theorem savePlan_partitions_witness :
    (idsOf [wm1, wm2]).Nodup ∧ (idsOf [wm1, wm3]).Nodup ∧
    updateIds (savePlan "p" [wm1, wm3] [wm1, wm2]) = ["1"] ∧
    createIds (savePlan "p" [wm1, wm3] [wm1, wm2]) = ["2"] ∧
    deleteIds (savePlan "p" [wm1, wm3] [wm1, wm2]) = ["3"] := by
  obtain ⟨h1, h2, h3, -⟩ :=
    savePlan_partitions "p" [wm1, wm3] [wm1, wm2] (by decide) (by decide)
  exact ⟨by decide, by decide, h1.trans (by decide), h2.trans (by decide),
    h3.trans (by decide)⟩

/-- Sequential issue of the plan's operations against the persistence
collaborator `exec` (`await` per operation in the source); the first rejection
aborts the remainder, as a thrown JS exception leaves the `for` loops. -/
def execOps (exec : Op → Except String Unit) : List Op → Except String Unit
  | [] => .ok ()
  | op :: rest =>
    match exec op with
    | .ok _ => execOps exec rest
    | .error e => .error e

/-- The user-visible outcome of `handleSaveLayout`: the success toast, or the
failure toast from the `catch` block (title and description strings). -/
inductive SaveOutcome where
  | saved
  | failedToast (title description : String)
  deriving DecidableEq

/-- Outcome of `handleSaveLayout`: run the reconciliation plan sequentially;
the `catch` block discards the exception and shows a fixed generic toast. -/
def handleSaveLayoutOutcome (exec : Op → Except String Unit)
    (pid : String) (profileMonitors monitors : List Monitor) : SaveOutcome :=
  match execOps exec (savePlan pid profileMonitors monitors) with
  | .ok _ => .saved
  | .error _ => .failedToast "Error" "Failed to save monitor layout"

/-- A collaborator that rejects exactly the update of monitor id "1". -/
def failOnUpdate1 : Op → Except String Unit := fun op =>
  match op with
  | .update "1" _ _ _ _ => .error "update failed"
  | _ => .ok ()

/-- A collaborator that rejects exactly the delete of monitor id "3". -/
def failOnDelete3 : Op → Except String Unit := fun op =>
  match op with
  | .delete "3" => .error "delete failed"
  | _ => .ok ()

/-- Claim C6 counterexample: two saves of the same layout in which different
sub-operations fail — the update of monitor "1" in one run, the delete of
monitor "3" in the other — produce the identical fixed generic toast, so the
engine does not report which monitor or which operation kind failed. -/
theorem saveFailure_cex :
    handleSaveLayoutOutcome failOnUpdate1 "p" [wm1, wm3] [wm1, wm2]
      = .failedToast "Error" "Failed to save monitor layout" ∧
    handleSaveLayoutOutcome failOnDelete3 "p" [wm1, wm3] [wm1, wm2]
      = .failedToast "Error" "Failed to save monitor layout" ∧
    (failOnUpdate1 (Op.update "1" 0 0 2560 1440)).isOk = false ∧
    (failOnDelete3 (Op.update "1" 0 0 2560 1440)).isOk = true ∧
    handleSaveLayoutOutcome failOnUpdate1 "p" [wm1, wm3] [wm1, wm2]
      = handleSaveLayoutOutcome failOnDelete3 "p" [wm1, wm3] [wm1, wm2] :=
  ⟨rfl, rfl, rfl, rfl, rfl⟩

/-- Claim C6 (amended): if one of the sequentially issued operations of a save
fails partway through, `handleSaveLayout` reports a fixed generic failure
("Failed to save monitor layout") that identifies neither the monitor nor the
operation kind. -/
theorem saveFailure_generic (exec : Op → Except String Unit) (pid : String)
    (O N : List Monitor) (e : String)
    (h : execOps exec (savePlan pid O N) = .error e) :
    handleSaveLayoutOutcome exec pid O N
      = .failedToast "Error" "Failed to save monitor layout" := by
  rw [handleSaveLayoutOutcome, h]

theorem saveFailure_generic_witness :
    execOps failOnUpdate1 (savePlan "p" [wm1, wm3] [wm1, wm2]) = .error "update failed" ∧
    handleSaveLayoutOutcome failOnUpdate1 "p" [wm1, wm3] [wm1, wm2]
      = .failedToast "Error" "Failed to save monitor layout" :=
  ⟨rfl, saveFailure_generic failOnUpdate1 "p" [wm1, wm3] [wm1, wm2] "update failed" rfl⟩

/-- JS `String.prototype.startsWith`, over the character-list model of JS
strings used for the apply-outcome protocol. -/
def strStartsWith : List Char → List Char → Bool
  | _, [] => true
  | [], _ :: _ => false
  | c :: cs, p :: ps => c == p && strStartsWith cs ps

/-- JS `String.prototype.includes`: some suffix of `s` starts with `pat`. -/
def strContainsSub : List Char → List Char → Bool
  | [], pat => strStartsWith [] pat
  | c :: rest, pat => strStartsWith (c :: rest) pat || strContainsSub rest pat

/-- The sentinel prefixing an apply result that reports a missing
display-configuration permission. -/
def permissionSentinel : List Char := "PERMISSION_REQUIRED:".toList

/-- The sentinel prefixing an apply result that carries the manual
command-line invocation. -/
def manualSentinel : List Char := "MANUAL_COMMAND:".toList

/-- The fragment of a thrown error message that `handleApplyLayout` treats as
a manual-command error. -/
def manualHint : List Char := "Please run this command manually".toList

/-- The four user-visible outcomes of `handleApplyLayout`. -/
inductive ApplyOutcome where
  | applied
  | permissionRequired
  | manualCommand (cmd : List Char)
  | failed (msg : List Char)

/-- The outcome classification of `handleApplyLayout`, given the collaborator
response: a resolved result string or a thrown error message. -/
def handleApplyLayout (result : Except (List Char) (List Char)) : ApplyOutcome :=
  match result with
  | .ok r =>
    if strStartsWith r permissionSentinel then .permissionRequired
    else if strStartsWith r manualSentinel then
      .manualCommand (r.drop manualSentinel.length)
    else .applied
  | .error msg =>
    if strContainsSub msg manualHint then .manualCommand msg
    else .failed msg

lemma strStartsWith_append (p s : List Char) : strStartsWith (p ++ s) p = true := by
  induction p with
  | nil => simp [strStartsWith]
  | cons c cs ih => simp [strStartsWith, ih]

/-- Claim C2: a collaborator response reporting an ungranted permission is
classified as the distinguishable `permissionRequired` outcome (not a generic
failure), and a response carrying the manual command is classified as
`manualCommand` holding exactly the verbatim command text after the sentinel. -/
theorem handleApplyLayout_outcomes (cmd : List Char) :
    handleApplyLayout (.ok (permissionSentinel ++ cmd)) = .permissionRequired ∧
    handleApplyLayout (.ok (manualSentinel ++ cmd)) = .manualCommand cmd := by
  constructor
  · simp [handleApplyLayout, strStartsWith_append]
  · have h1 : strStartsWith (manualSentinel ++ cmd) permissionSentinel = false := by
      have hm : manualSentinel = 'M' :: "ANUAL_COMMAND:".toList := by decide
      have hp : permissionSentinel = 'P' :: "ERMISSION_REQUIRED:".toList := by decide
      rw [hm, hp]
      simp [strStartsWith]
    have h2 : (manualSentinel ++ cmd).drop manualSentinel.length = cmd :=
      List.drop_left _ _
    simp [handleApplyLayout, h1, strStartsWith_append, h2]

/-- The drag lock taken by `handleMonitorMouseDown`: the display scale and
canvas offsets snapshotted at pointer-down, plus the anchor (pointer position
mapped into pixel space by the locked inverse transform, minus the monitor's
origin). -/
structure DragState where
  lockedScale : ℚ
  lockedOffsetX : ℚ
  lockedOffsetY : ℚ
  anchorX : ℚ
  anchorY : ℚ

/-- `handleMonitorMouseDown`: lock the current scale and offsets and compute
the in-monitor anchor from the pointer-down position. -/
def handleMonitorMouseDown (m : Monitor) (displayScale : ℚ)
    (offsetX offsetY rectLeft rectTop clientX clientY : ℚ) : DragState :=
  { lockedScale := displayScale
    lockedOffsetX := offsetX
    lockedOffsetY := offsetY
    anchorX := (clientX - rectLeft - offsetX) / displayScale - m.x
    anchorY := (clientY - rectTop - offsetY) / displayScale - m.y }

/-- `handleMouseMove`: the new origin written into the dragged monitor — the
pointer position under the locked inverse transform, minus the anchor. -/
def handleMouseMove (st : DragState) (rectLeft rectTop clientX clientY : ℚ) :
    ℚ × ℚ :=
  ((clientX - rectLeft - st.lockedOffsetX) / st.lockedScale - st.anchorX,
   (clientY - rectTop - st.lockedOffsetY) / st.lockedScale - st.anchorY)

/-- The dragged monitor's origin after a sequence of pointer-move events under
a fixed drag lock: each move overwrites the origin with `handleMouseMove` of
the current pointer position. -/
def dragRun (st : DragState) (rectLeft rectTop : ℚ) (origin : ℚ × ℚ)
    (moves : List (ℚ × ℚ)) : ℚ × ℚ :=
  moves.foldl (fun _ p => handleMouseMove st rectLeft rectTop p.1 p.2) origin

/-- Claim C3: under the lock-on-drag-start discipline, each pointer-move
writes an origin that is a function of the current pointer position only
(the last move alone determines the origin, whatever moves preceded it), and a
drag whose pointer returns to the pointer-down position restores the dragged
monitor's origin exactly.  The nonzero-scale hypothesis records that JS
division by the locked scale must be defined (the source clamps the scale to
at least 0.05). -/
theorem drag_reversible (m : Monitor) (s offsetX offsetY rectLeft rectTop px py : ℚ)
    (moves : List (ℚ × ℚ)) (origin : ℚ × ℚ) (_hs : s ≠ 0) :
    (∀ q : ℚ × ℚ,
      dragRun (handleMonitorMouseDown m s offsetX offsetY rectLeft rectTop px py)
          rectLeft rectTop origin (moves ++ [q])
        = handleMouseMove
            (handleMonitorMouseDown m s offsetX offsetY rectLeft rectTop px py)
            rectLeft rectTop q.1 q.2) ∧
    dragRun (handleMonitorMouseDown m s offsetX offsetY rectLeft rectTop px py)
        rectLeft rectTop origin (moves ++ [(px, py)])
      = (m.x, m.y) := by
  have hlast : ∀ q : ℚ × ℚ,
      dragRun (handleMonitorMouseDown m s offsetX offsetY rectLeft rectTop px py)
          rectLeft rectTop origin (moves ++ [q])
        = handleMouseMove
            (handleMonitorMouseDown m s offsetX offsetY rectLeft rectTop px py)
            rectLeft rectTop q.1 q.2 := by
    intro q
    rw [dragRun, List.foldl_append]
    rfl
  refine ⟨hlast, (hlast (px, py)).trans ?_⟩
  rw [handleMouseMove, handleMonitorMouseDown]
  exact Prod.ext (by ring) (by ring)

theorem drag_reversible_witness :
    (2 : ℚ) ≠ 0 ∧
    dragRun (handleMonitorMouseDown
        { id := "1", x := 30, y := 40, width := 2560, height := 1440,
          name := "A", resolution := "2560x1440", isPrimary := true,
          orientation := none } 2 5 7 1 1 100 200)
      1 1 (0, 0) [(640, 480), (100, 200)] = (30, 40) :=
  ⟨by norm_num,
    (drag_reversible
      { id := "1", x := 30, y := 40, width := 2560, height := 1440,
        name := "A", resolution := "2560x1440", isPrimary := true,
        orientation := none }
      2 5 7 1 1 100 200 [(640, 480)] (0, 0) (by norm_num)).2⟩

/-- The state of the system-detection session hook, with the element types of
the four descriptor lists abstract. -/
structure SDState (M W A I : Type) where
  monitors : List M
  windows : List W
  runningApps : List A
  installedApps : List I
  isLoading : Bool
  error : Option String
  lastCapturedAt : Option String

/-- The immediate state write of `refreshAll` once the concurrently awaited
monitors and windows are both available. -/
def refreshAllFast {M W A I : Type} (st : SDState M W A I)
    (monitors : List M) (windows : List W) (t : String) : SDState M W A I :=
  { st with
    monitors := monitors
    windows := windows
    isLoading := false
    error := none
    lastCapturedAt := some t }

/-- `refreshAll` (Tauri path): set the busy flag, await the joint result of
the concurrent monitor and window fetches (`Promise.all` rejects when either
rejects), write both immediately on success, then merge the background
running-applications result when it resolves — its rejection is swallowed by
the `.catch(() => {})` and touches nothing. -/
def refreshAll {M W A I : Type} (st : SDState M W A I)
    (mw : Except String (List M × List W)) (t : String)
    (apps : Except String (List A)) : SDState M W A I :=
  let st0 := { st with isLoading := true, error := none }
  match mw with
  | .error e => { st0 with isLoading := false, error := some e }
  | .ok (ms, ws) =>
    let st1 := refreshAllFast st0 ms ws t
    match apps with
    | .ok rapps => { st1 with runningApps := rapps }
    | .error _ => st1

/-- Claim C5: `refreshAll` writes the concurrently fetched monitors and
windows immediately; the background running-applications fetch is merged in
when it succeeds, and when it fails the session error stays unset and the
freshly fetched monitors and windows are retained unchanged. -/
theorem refreshAll_apps_failure_isolated {M W A I : Type} (st : SDState M W A I)
    (ms : List M) (ws : List W) (t e : String) (rapps : List A) :
    (refreshAll st (.ok (ms, ws)) t (.error e)).error = none ∧
    (refreshAll st (.ok (ms, ws)) t (.error e)).monitors = ms ∧
    (refreshAll st (.ok (ms, ws)) t (.error e)).windows = ws ∧
    (refreshAll st (.ok (ms, ws)) t (.error e)).runningApps = st.runningApps ∧
    (refreshAll st (.ok (ms, ws)) t (.error e)).isLoading = false ∧
    (refreshAll st (.ok (ms, ws)) t (.error e)).lastCapturedAt = some t ∧
    (refreshAll st (.ok (ms, ws)) t (.ok rapps)).runningApps = rapps ∧
    (refreshAll st (.ok (ms, ws)) t (.ok rapps)).monitors = ms ∧
    (refreshAll st (.ok (ms, ws)) t (.ok rapps)).windows = ws ∧
    (refreshAll st (.ok (ms, ws)) t (.ok rapps)).error = none :=
  ⟨rfl, rfl, rfl, rfl, rfl, rfl, rfl, rfl, rfl, rfl⟩

/-- The fixed spacing constant of `applyPresetLayout` (`const spacing = 50`,
in actual pixels). -/
def presetSpacing : ℚ := 50

/-- The side-by-side pass shared by the `dual-side` and `triple` presets:
place each monitor at `(runningX, 0)` and advance `runningX` by its width plus
the spacing; also return the final `runningX` (where the `triple` preset puts
its synthesized monitor). -/
def sideBySideFrom : List Monitor → ℚ → List Monitor × ℚ
  | [], runningX => ([], runningX)
  | m :: rest, runningX =>
    let r := sideBySideFrom rest (runningX + m.width + presetSpacing)
    ({ m with x := runningX, y := 0 } :: r.1, r.2)

/-- The vertical pass of the `dual-vertical` preset: place each monitor at
`(0, runningY)` and advance `runningY` by its height plus the spacing. -/
def stackFrom : List Monitor → ℚ → List Monitor
  | [], _ => []
  | m :: rest, runningY =>
    { m with x := 0, y := runningY } :: stackFrom rest (runningY + m.height + presetSpacing)

/-- The monitor the `triple` preset synthesizes when fewer than three monitors
exist (the resolution string is verbatim from the source). -/
def defaultThirdMonitor (runningX : ℚ) : Monitor :=
  { id := "3", x := runningX, y := 0, width := 1920, height := 1080,
    name := "Monitor 3", resolution := "1920√ó1080", isPrimary := false,
    orientation := none }

/-- `applyPresetLayout`: the three preset branches of the source (an unknown
preset leaves the initial empty list), paired with the `hasUnsavedChanges`
flag the handler sets unconditionally at the end. -/
def applyPresetLayout (preset : String) (monitors : List Monitor) :
    List Monitor × Bool :=
  let newMonitors : List Monitor :=
    if preset = "dual-side" then (sideBySideFrom monitors 0).1
    else if preset = "dual-vertical" then stackFrom (monitors.take 2) 0
    else if preset = "triple" then
      let r := sideBySideFrom (monitors.take 3) 0
      if r.1.length < 3 then r.1 ++ [defaultThirdMonitor r.2] else r.1
    else []
  (newMonitors, true)

lemma sideBySideFrom_length (ms : List Monitor) :
    ∀ runningX : ℚ, ((sideBySideFrom ms runningX).1).length = ms.length := by
  induction ms with
  | nil => intro rx; rfl
  | cons m rest ih => intro rx; simp [sideBySideFrom, ih]

lemma sideBySideFrom_getElem? (ms : List Monitor) :
    ∀ (runningX : ℚ) (i : ℕ),
      (((sideBySideFrom ms runningX).1)[i]?)
        = (ms[i]?).map fun m =>
            { m with
              x := runningX + ((ms.take i).map fun n => n.width + presetSpacing).sum
              y := 0 } := by
  induction ms with
  | nil => intro rx i; simp [sideBySideFrom]
  | cons m rest ih =>
    intro rx i
    cases i with
    | zero => simp [sideBySideFrom]
    | succ i =>
      rw [show ((sideBySideFrom (m :: rest) rx).1) =
          { m with x := rx, y := 0 } ::
            (sideBySideFrom rest (rx + m.width + presetSpacing)).1 from rfl]
      simp only [List.getElem?_cons_succ]
      rw [ih]
      cases h : rest[i]? with
      | none => simp [h]
      | some m2 =>
        simp [h, List.take_succ_cons, Monitor.mk.injEq]
        ring

lemma take_sum_succ (l : List ℚ) :
    ∀ (i : ℕ) (x : ℚ), l[i]? = some x →
      (l.take (i + 1)).sum = (l.take i).sum + x := by
  induction l with
  | nil => intro i x h; simp at h
  | cons a l ih =>
    intro i x h
    cases i with
    | zero =>
      simp only [List.getElem?_cons_zero, Option.some.injEq] at h
      subst h
      simp [List.take_succ_cons]
    | succ i =>
      simp only [List.getElem?_cons_succ] at h
      simp only [List.take_succ_cons, List.sum_cons, ih i x h]
      ring

/-- Claim C8: the `dual-side` preset keeps the monitors in their existing
order, puts every y-origin at 0, makes consecutive x-origins differ by exactly
the previous monitor's width plus the spacing constant (hence, for positive
widths, strictly increasing), and marks the session dirty. -/
theorem sideBySide_spec (monitors : List Monitor)
    (hw : ∀ m ∈ monitors, 0 < m.width) :
    (applyPresetLayout "dual-side" monitors).2 = true ∧
    ((applyPresetLayout "dual-side" monitors).1).length = monitors.length ∧
    (∀ (i : ℕ) (m : Monitor),
      (((applyPresetLayout "dual-side" monitors).1)[i]?) = some m → m.y = 0) ∧
    (∀ (i : ℕ) (m m2 : Monitor),
      (((applyPresetLayout "dual-side" monitors).1)[i]?) = some m →
      (((applyPresetLayout "dual-side" monitors).1)[i + 1]?) = some m2 →
      m2.x = m.x + m.width + presetSpacing ∧ m.x < m2.x) := by
  have hbranch : (applyPresetLayout "dual-side" monitors).1
      = (sideBySideFrom monitors 0).1 := rfl
  refine ⟨rfl, ?_, ?_, ?_⟩
  · rw [hbranch, sideBySideFrom_length]
  · intro i m hm
    rw [hbranch, sideBySideFrom_getElem?] at hm
    obtain ⟨m0, -, hm0⟩ := Option.map_eq_some'.mp hm
    rw [← hm0]
  · intro i m m2 hm hm2
    rw [hbranch, sideBySideFrom_getElem?] at hm hm2
    obtain ⟨m0, hge, hm0⟩ := Option.map_eq_some'.mp hm
    obtain ⟨m1, -, hm1⟩ := Option.map_eq_some'.mp hm2
    have hsum : ((monitors.take (i + 1)).map fun n => n.width + presetSpacing).sum
        = ((monitors.take i).map fun n => n.width + presetSpacing).sum
          + (m0.width + presetSpacing) := by
      rw [List.map_take, List.map_take]
      exact take_sum_succ (monitors.map fun n => n.width + presetSpacing) i
        (m0.width + presetSpacing)
        (by rw [List.getElem?_map, hge]; rfl)
    have hx2 : m2.x = (0 : ℚ)
        + (((monitors.take (i + 1)).map fun n => n.width + presetSpacing).sum) := by
      rw [← hm1]
    have hx : m.x = (0 : ℚ)
        + (((monitors.take i).map fun n => n.width + presetSpacing).sum) := by
      rw [← hm0]
    have hwidth : m.width = m0.width := by rw [← hm0]
    have hgap : m2.x = m.x + m.width + presetSpacing := by
      rw [hx2, hx, hsum, hwidth]; ring
    refine ⟨hgap, ?_⟩
    have hm0mem : m0 ∈ monitors := List.getElem?_mem hge
    have : 0 < m.width + presetSpacing := by
      have := hw m0 hm0mem
      rw [hwidth, presetSpacing]
      linarith
    rw [hgap]
    linarith

theorem sideBySide_spec_witness :
    (∀ m ∈ [wm1, wm2], 0 < m.width) ∧
    ((applyPresetLayout "dual-side" [wm1, wm2]).1).length = 2 := by
  have h := sideBySide_spec [wm1, wm2] (by decide)
  exact ⟨by decide, h.2.1.trans (by decide)⟩

/-- Claim C10: on an editable set with more than two monitors the
`dual-vertical` (stacked) preset replaces the session's monitor set with
exactly the first two monitors — repositioned at x = 0 with y advancing by
height plus spacing — and every later monitor is dropped. -/
theorem stacked_spec (a b c : Monitor) (rest : List Monitor) :
    applyPresetLayout "dual-vertical" (a :: b :: c :: rest)
      = ([{ a with x := 0, y := 0 },
          { b with x := 0, y := a.height + presetSpacing }], true) := by
  simp [applyPresetLayout, stackFrom, Monitor.mk.injEq]

/-- Claim C7 counterexample: applying the `triple` preset to a single-monitor
set (fewer than three monitors) yields two monitors, not three — the source
appends only one synthesized monitor. -/
theorem triple_cex :
    [wm1].length < 3 ∧
    ((applyPresetLayout "triple" [wm1]).1).length = 2 ∧
    ¬ ((applyPresetLayout "triple" [wm1]).1).length = 3 := by
  decide

/-- Claim C7 (amended): applying the `triple` preset to an editable set of
exactly two monitors yields exactly three side-by-side monitors, the third
being the synthesized default 1920×1080 non-primary monitor; for smaller sets
only that single synthesized monitor is appended. -/
theorem triple_two_monitors (a b : Monitor) :
    ((applyPresetLayout "triple" [a, b]).1).length = 3 ∧
    applyPresetLayout "triple" [a, b]
      = ([{ a with x := 0, y := 0 },
          { b with x := a.width + presetSpacing, y := 0 },
          defaultThirdMonitor (a.width + presetSpacing + b.width + presetSpacing)],
         true) := by
  constructor
  · rfl
  · simp [applyPresetLayout, sideBySideFrom, defaultThirdMonitor, Monitor.mk.injEq]

/-- The monitor bounding box of the canvas transforms. -/
structure Bounds where
  minX : ℚ
  minY : ℚ
  maxX : ℚ
  maxY : ℚ

/-- The bounding box fold of `calculateDisplayScale` over a non-empty monitor
list.  The source seeds the fold with ±Infinity, which on a non-empty list is
equivalent to seeding with the first monitor's rectangle. -/
def fitBounds (m : Monitor) (rest : List Monitor) : Bounds :=
  rest.foldl
    (fun acc n =>
      { minX := min acc.minX n.x
        minY := min acc.minY n.y
        maxX := max acc.maxX (n.x + n.width)
        maxY := max acc.maxY (n.y + n.height) })
    { minX := m.x, minY := m.y, maxX := m.x + m.width, maxY := m.y + m.height }

/-- `totalWidth = maxX - minX` of the bounding box. -/
def totalWidthOf (m : Monitor) (rest : List Monitor) : ℚ :=
  (fitBounds m rest).maxX - (fitBounds m rest).minX

/-- `totalHeight = maxY - minY` of the bounding box. -/
def totalHeightOf (m : Monitor) (rest : List Monitor) : ℚ :=
  (fitBounds m rest).maxY - (fitBounds m rest).minY

/-- The scale of `calculateDisplayScale` before the minimum clamp:
`Math.min(scaleX, scaleY, 0.28)` with a 32-pixel margin taken off each canvas
dimension.  (JS divides by zero to Infinity; the theorems below assume a
positive bounding box, where ℚ division agrees.) -/
def rawFitScale (m : Monitor) (rest : List Monitor)
    (clientWidth clientHeight : ℚ) : ℚ :=
  min (min ((clientWidth - 32) / totalWidthOf m rest)
        ((clientHeight - 32) / totalHeightOf m rest)) 0.28

/-- `calculateDisplayScale`: 0.15 for an empty monitor set, otherwise the fit
scale clamped below by `Math.max(scale, 0.05)`. -/
def calculateDisplayScale (monitors : List Monitor)
    (clientWidth clientHeight : ℚ) : ℚ :=
  match monitors with
  | [] => 0.15
  | m :: rest => max (rawFitScale m rest clientWidth clientHeight) 0.05

/-- A monitor set far too wide for the canvas: the 0.05 minimum clamp then
overrides the fit scale. -/
def wideMonitor : Monitor :=
  { id := "w", x := 0, y := 0, width := 100000, height := 1000,
    name := "Wide", resolution := "100000x1000", isPrimary := true,
    orientation := none }

/-- Claim C4 counterexample: for a single 100000-pixel-wide monitor on an
832×832 canvas the computed scale is the minimum clamp 0.05, and
`scale · totalWidth = 5000` exceeds the canvas width (and its margin-reduced
800), so the fit inequality fails as stated. -/
theorem calculateDisplayScale_cex :
    totalWidthOf wideMonitor [] = 100000 ∧
    calculateDisplayScale [wideMonitor] 832 832 = 0.05 ∧
    ¬ calculateDisplayScale [wideMonitor] 832 832 * totalWidthOf wideMonitor [] ≤ 832 := by
  have h1 : totalWidthOf wideMonitor [] = 100000 := by
    norm_num [totalWidthOf, fitBounds, wideMonitor]
  have h3 : totalHeightOf wideMonitor [] = 1000 := by
    norm_num [totalHeightOf, fitBounds, wideMonitor]
  have hr : rawFitScale wideMonitor [] 832 832 = 1 / 125 := by
    rw [rawFitScale, h1, h3]
    norm_num [min_def]
  have h2 : calculateDisplayScale [wideMonitor] 832 832 = 0.05 := by
    show max (rawFitScale wideMonitor [] 832 832) 0.05 = 0.05
    rw [hr]
    norm_num [max_def]
  refine ⟨h1, h2, ?_⟩
  rw [h2, h1]
  norm_num

/-- Claim C4 (amended): whenever the unclamped fit scale
`min(scaleX, scaleY, 0.28)` is not overridden by the 0.05 minimum clamp (and
the bounding box is positive), the computed scale lies in the clamp band and
satisfies `scale · totalWidth ≤ canvasWidth` and
`scale · totalHeight ≤ canvasHeight` for the margin-reduced canvas
dimensions. -/
theorem calculateDisplayScale_fits (m : Monitor) (rest : List Monitor)
    (clientWidth clientHeight : ℚ)
    (htw : 0 < totalWidthOf m rest) (hth : 0 < totalHeightOf m rest)
    (hmin : (0.05 : ℚ) ≤ rawFitScale m rest clientWidth clientHeight) :
    (0.05 : ℚ) ≤ calculateDisplayScale (m :: rest) clientWidth clientHeight ∧
    calculateDisplayScale (m :: rest) clientWidth clientHeight ≤ 0.28 ∧
    calculateDisplayScale (m :: rest) clientWidth clientHeight * totalWidthOf m rest
      ≤ clientWidth - 32 ∧
    calculateDisplayScale (m :: rest) clientWidth clientHeight * totalHeightOf m rest
      ≤ clientHeight - 32 := by
  have hc : calculateDisplayScale (m :: rest) clientWidth clientHeight
      = rawFitScale m rest clientWidth clientHeight := max_eq_left hmin
  refine ⟨?_, ?_, ?_, ?_⟩
  · rw [hc]; exact hmin
  · rw [hc]; exact min_le_right _ _
  · rw [hc]
    have h1 : rawFitScale m rest clientWidth clientHeight
        ≤ (clientWidth - 32) / totalWidthOf m rest :=
      le_trans (min_le_left _ _) (min_le_left _ _)
    exact (le_div_iff₀ htw).mp h1
  · rw [hc]
    have h1 : rawFitScale m rest clientWidth clientHeight
        ≤ (clientHeight - 32) / totalHeightOf m rest :=
      le_trans (min_le_left _ _) (min_le_right _ _)
    exact (le_div_iff₀ hth).mp h1

theorem calculateDisplayScale_fits_witness :
    (0 : ℚ) < totalWidthOf wm1 [] ∧ (0 : ℚ) < totalHeightOf wm1 [] ∧
    (0.05 : ℚ) ≤ rawFitScale wm1 [] 832 832 ∧
    calculateDisplayScale [wm1] 832 832 * totalWidthOf wm1 [] ≤ 832 - 32 := by
  have htw : (0 : ℚ) < totalWidthOf wm1 [] := by
    norm_num [totalWidthOf, fitBounds, wm1]
  have hth : (0 : ℚ) < totalHeightOf wm1 [] := by
    norm_num [totalHeightOf, fitBounds, wm1]
  have hmin : (0.05 : ℚ) ≤ rawFitScale wm1 [] 832 832 := by
    norm_num [rawFitScale, totalWidthOf, totalHeightOf, fitBounds, wm1, min_def]
  exact ⟨htw, hth, hmin,
    (calculateDisplayScale_fits wm1 [] 832 832 htw hth hmin).2.2.1⟩

/-- A raw window record of the backend window detector (the fields its filter
reads; title, application and flag fields are not consulted by it). -/
structure RawWindow where
  windowId : ℕ
  pid : ℕ
  x : ℚ
  y : ℚ
  width : ℚ
  height : ℚ
  layer : ℤ
  deriving DecidableEq

/-- Modelled from the spec: the Rust `detect_windows` implementation is not
among the frontend sources (only its documentation and frontend callers are).
Per the spec, a raw window is discarded when its layer is nonzero or its
bounding area is below a minimum-area threshold; the backend documentation
puts the threshold at 50×50. -/
def minWindowArea : ℚ := 2500

/-- Modelled from the spec: the filtering step of `detect_windows` — keep
exactly the layer-0 windows of at least the minimum area. -/
def detectWindowsKept (raw : List RawWindow) : List RawWindow :=
  raw.filter fun w => w.layer == 0 && decide (minWindowArea ≤ w.width * w.height)

/-- Claim C9: a raw window whose layer is nonzero or whose bounding area is
below the minimum-area threshold never appears in the normalized window
sequence. -/
theorem detectWindows_excludes (raw : List RawWindow) (w : RawWindow)
    (h : w.layer ≠ 0 ∨ w.width * w.height < minWindowArea) :
    w ∉ detectWindowsKept raw := by
  intro hmem
  rw [detectWindowsKept, List.mem_filter] at hmem
  obtain ⟨-, hcond⟩ := hmem
  simp only [Bool.and_eq_true, beq_iff_eq, decide_eq_true_eq] at hcond
  rcases h with h | h
  · exact h hcond.1
  · exact absurd hcond.2 (not_le.mpr h)

/-- A menu-bar-like window: layer 25, so it must be filtered out. -/
def chromeWindow : RawWindow :=
  { windowId := 5, pid := 1, x := 0, y := 0, width := 3000, height := 24,
    layer := 25 }

theorem detectWindows_excludes_witness :
    (chromeWindow.layer ≠ 0 ∨ chromeWindow.width * chromeWindow.height < minWindowArea) ∧
    chromeWindow ∉ detectWindowsKept [chromeWindow] :=
  ⟨by decide, detectWindows_excludes [chromeWindow] chromeWindow (by decide)⟩

end Smoothie
